import Mathlib

/-!
# Verification of the agentic-commerce product intelligence pipeline

Shallow embedding of the repository's core algorithms and proofs about them:

* the multi-factor scoring engine (`score_product` in the backend design
  document, `src/unnamed/part_000`, lines 299-397) — review, price, delivery,
  preference and coherence factors, the weighted composite and its rounded
  breakdown;
* the frontend URL gate `isValidProductUrl` (`src/frontend/lib/types.ts`) and
  the cart-item link rendering (`src/unnamed/part_001`, `CartItemCard`);
* the checkout review step grouping (`src/frontend/components/checkout/CheckoutFlow.tsx`);
* the cart operations `swap`, `optimizeBudget`, `optimizeDelivery` and the
  recommender `userPreferenceScore`, whose backend implementations are not in
  the source snapshot (the frontend only forwards HTTP requests to them);
  these are modelled from the specification and marked as such.

Numbers are embedded as exact rationals (ℚ); the review factor uses the real
logarithm (ℝ) exactly as the source uses `math.log`.  Python's `round(x, 1)`
is embedded as exact round-half-even at one decimal.
-/

/-! ## Rounding: Python `round(x, 1)` as exact round-half-even -/

/-- Round-half-even to the nearest integer, on ℚ (Python's `round` tie rule). -/
def rdHalfEven (x : ℚ) : ℤ :=
  let n : ℤ := ⌊x⌋
  if x - n < 1/2 then n
  else if 1/2 < x - n then n + 1
  else if n % 2 = 0 then n else n + 1

/-- Python's `round(x, 1)` on exact rationals. -/
def pyRound10 (x : ℚ) : ℚ := (rdHalfEven (10 * x) : ℚ) / 10

/-- Round-half-even to the nearest integer, on ℝ. -/
noncomputable def rdHalfEvenR (x : ℝ) : ℤ :=
  let n : ℤ := ⌊x⌋
  if x - n < 1/2 then n
  else if 1/2 < x - n then n + 1
  else if n % 2 = 0 then n else n + 1

/-- Python's `round(x, 1)` on ℝ. -/
noncomputable def pyRound10R (x : ℝ) : ℝ := (rdHalfEvenR (10 * x) : ℝ) / 10

theorem rdHalfEvenR_ratCast (q : ℚ) : rdHalfEvenR (q : ℝ) = rdHalfEven q := by
  have hfl : ⌊(q : ℝ)⌋ = ⌊q⌋ := Rat.floor_cast q
  have h1 : ((q : ℝ) - (⌊q⌋ : ℤ) < 1/2) ↔ (q - ⌊q⌋ < 1/2) := by
    rw [show ((⌊q⌋ : ℤ) : ℝ) = ((((⌊q⌋ : ℤ) : ℚ)) : ℝ) by push_cast; ring,
      ← Rat.cast_sub, show ((1 : ℝ)/2) = (((1 : ℚ)/2 : ℚ) : ℝ) by norm_num,
      Rat.cast_lt]
  have h2 : ((1:ℝ)/2 < (q : ℝ) - (⌊q⌋ : ℤ)) ↔ ((1:ℚ)/2 < q - ⌊q⌋) := by
    rw [show ((⌊q⌋ : ℤ) : ℝ) = ((((⌊q⌋ : ℤ) : ℚ)) : ℝ) by push_cast; ring,
      ← Rat.cast_sub, show ((1 : ℝ)/2) = (((1 : ℚ)/2 : ℚ) : ℝ) by norm_num,
      Rat.cast_lt]
  simp only [rdHalfEvenR, rdHalfEven, hfl]
  by_cases c1 : q - ⌊q⌋ < 1/2
  · rw [if_pos (h1.mpr c1), if_pos c1]
  · rw [if_neg (fun h => c1 (h1.mp h)), if_neg c1]
    by_cases c2 : (1:ℚ)/2 < q - ⌊q⌋
    · rw [if_pos (h2.mpr c2), if_pos c2]
    · rw [if_neg (fun h => c2 (h2.mp h)), if_neg c2]

theorem pyRound10_cast (q : ℚ) : ((pyRound10 q : ℚ) : ℝ) = pyRound10R (q : ℝ) := by
  simp only [pyRound10, pyRound10R]
  rw [show (10 * (q : ℝ)) = (((10 * q : ℚ)) : ℝ) by push_cast; ring, rdHalfEvenR_ratCast]
  push_cast
  ring

theorem rdHalfEvenR_sub_abs_le (x : ℝ) : |(rdHalfEvenR x : ℝ) - x| ≤ 1/2 := by
  have hfl : ((⌊x⌋ : ℤ) : ℝ) ≤ x := Int.floor_le x
  have hfu : x < (⌊x⌋ : ℤ) + 1 := Int.lt_floor_add_one x
  simp only [rdHalfEvenR]
  by_cases c1 : x - (⌊x⌋ : ℤ) < 1/2
  · rw [if_pos c1, abs_le]; constructor <;> linarith
  · rw [if_neg c1]
    by_cases c2 : (1:ℝ)/2 < x - (⌊x⌋ : ℤ)
    · rw [if_pos c2]; push_cast; rw [abs_le]; constructor <;> linarith
    · rw [if_neg c2]
      by_cases c3 : ⌊x⌋ % 2 = 0
      · rw [if_pos c3, abs_le]; constructor <;> linarith
      · rw [if_neg c3]; push_cast; rw [abs_le]; constructor <;> linarith

theorem pyRound10R_sub_abs_le (x : ℝ) : |pyRound10R x - x| ≤ 1/20 := by
  have h := rdHalfEvenR_sub_abs_le (10 * x)
  have : pyRound10R x - x = ((rdHalfEvenR (10*x) : ℝ) - 10 * x) / 10 := by
    simp only [pyRound10R]; ring
  rw [this, abs_div]
  rw [show |(10:ℝ)| = 10 by norm_num]
  linarith [abs_nonneg ((rdHalfEvenR (10*x) : ℝ) - 10 * x)]

theorem rdHalfEven_intCast (m : ℤ) : rdHalfEven (m : ℚ) = m := by
  simp only [rdHalfEven, Int.floor_intCast]
  rw [if_pos]
  norm_num

/-- Rounding `pyRound10` is the identity on exact multiples of one tenth. -/
theorem pyRound10_of_tenth (x : ℚ) (m : ℤ) (h : 10 * x = (m : ℚ)) : pyRound10 x = x := by
  simp only [pyRound10, h, rdHalfEven_intCast]
  have h10 : (10:ℚ) ≠ 0 := by norm_num
  field_simp
  linarith [h]

/-- Evaluation helper: round of a non-tie value below the midpoint. -/
theorem rdHalfEven_eq_of_lt (z : ℚ) (n : ℤ) (hfl : ⌊z⌋ = n) (h : z - n < 1/2) :
    rdHalfEven z = n := by
  simp only [rdHalfEven, hfl]
  rw [if_pos h]

/-- Evaluation helper: round of a non-tie value above the midpoint. -/
theorem rdHalfEven_eq_of_gt (z : ℚ) (n : ℤ) (hfl : ⌊z⌋ = n) (h : 1/2 < z - n) :
    rdHalfEven z = n + 1 := by
  simp only [rdHalfEven, hfl]
  rw [if_neg (by linarith), if_pos h]

/-- Evaluation helper: round of an exact tie with even floor. -/
theorem rdHalfEven_eq_tie_even (z : ℚ) (n : ℤ) (hfl : ⌊z⌋ = n) (h : z - n = 1/2)
    (he : n % 2 = 0) : rdHalfEven z = n := by
  simp only [rdHalfEven, hfl]
  rw [if_neg (by rw [h]; exact lt_irrefl _), if_neg (by rw [h]; exact lt_irrefl _), if_pos he]

/-- Evaluation helper: round of an exact tie with odd floor. -/
theorem rdHalfEven_eq_tie_odd (z : ℚ) (n : ℤ) (hfl : ⌊z⌋ = n) (h : z - n = 1/2)
    (ho : ¬ n % 2 = 0) : rdHalfEven z = n + 1 := by
  simp only [rdHalfEven, hfl]
  rw [if_neg (by rw [h]; exact lt_irrefl _), if_neg (by rw [h]; exact lt_irrefl _), if_neg ho]

/-! ## Data model: canonical `Product` record (`src/frontend/lib/types.ts`) -/

/-- The canonical product record (`interface Product` in
`src/frontend/lib/types.ts`; same fields as the backend dataclass sketched in
`src/unnamed/part_000`).  Decimals are embedded as exact rationals. -/
structure Product where
  id : String
  name : String
  retailer : String
  price : ℚ
  original_price : Option ℚ := none
  rating : Option ℚ := none
  reviews_count : Option ℕ := none
  delivery_days : Option ℤ := none
  delivery_cost : Option ℚ := none
  delivery_text : Option String := none
  sizes : List String := []
  colors : List String := []
  brand : Option String := none
  description : Option String := none
  image_url : Option String := none
  product_url : Option String := none
  highlights : List String := []
deriving DecidableEq

/-! ## Scoring engine factors (`score_product`, `src/unnamed/part_000` 299-397) -/

/-- Price factor before the sale bonus (`score_product`, PRICE SCORE section):
`ratio = price / budget_per_item`; under (or at) budget `1 - ratio*0.5`, over
budget `max(0, 1 - (ratio - 1))`. -/
def basePriceScore (price budget_per_item : ℚ) : ℚ :=
  let price_ratio := price / budget_per_item
  if price_ratio ≤ 1 then 1 - price_ratio * 0.5
  else max 0 (1 - (price_ratio - 1))

/-- Price factor with the sale bonus.  The source guard
`if product.original_price and product.original_price > product.price` is
Python truthiness: the bonus applies only when `original_price` is present,
nonzero and strictly above `price`; then `discount_pct * 0.2` is added and the
result capped at 1. -/
def priceScoreRaw (price budget_per_item : ℚ) (original_price : Option ℚ) : ℚ :=
  match original_price with
  | some op =>
    if op ≠ 0 ∧ price < op then
      min 1 (basePriceScore price budget_per_item + (op - price) / op * 0.2)
    else basePriceScore price budget_per_item
  | none => basePriceScore price budget_per_item

def priceScore (p : Product) (budget_per_item : ℚ) : ℚ :=
  priceScoreRaw p.price budget_per_item p.original_price

/-- Delivery factor before the free-shipping bonus (`score_product`, DELIVERY
SCORE section): 1.0 when it arrives by the deadline, 0.5 within two days of
grace, 0.1 otherwise, 0.4 when `delivery_days` is absent. -/
def deliveryBase (delivery_days : Option ℤ) (days_until_deadline : ℤ) : ℚ :=
  match delivery_days with
  | some d =>
    if d ≤ days_until_deadline then 1
    else if d ≤ days_until_deadline + 2 then 0.5
    else 0.1
  | none => 0.4

/-- Delivery factor with the free-shipping bonus.  The source guard is
`if product.delivery_cost == 0`, which in Python is true only for a present
cost equal to zero (`None == 0` is false). -/
def deliveryScoreRaw (delivery_days : Option ℤ) (delivery_cost : Option ℚ)
    (days_until_deadline : ℤ) : ℚ :=
  if delivery_cost = some 0 then
    min 1 (deliveryBase delivery_days days_until_deadline + 0.1)
  else deliveryBase delivery_days days_until_deadline

def deliveryScore (p : Product) (days_until_deadline : ℤ) : ℚ :=
  deliveryScoreRaw p.delivery_days p.delivery_cost days_until_deadline

/-- Lower-cased characters of a string (Python `.lower()` on the ASCII range
used by requirement tokens). -/
def lowerChars (s : String) : List Char := s.data.map Char.toLower

/-- Python substring membership, `needle in haystack`, on character lists. -/
def containsSubstring (needle : List Char) : List Char → Bool
  | [] => needle.isEmpty
  | c :: rest => needle.isPrefixOf (c :: rest) || containsSubstring needle rest

/-- One requirement token matching the product text (`req.lower() in
(product.title + " " + (product.description or "")).lower()`). -/
def textMatches (req text : String) : Bool :=
  containsSubstring (lowerChars req) (lowerChars text)

/-- The text a requirement is matched against.  The design document's code
calls the field `title`; the canonical record calls it `name`. -/
def matchText (p : Product) : String := p.name ++ " " ++ p.description.getD ""

/-- Preference factor (`score_product`, PREFERENCE MATCH section): fraction of
requirement tokens found in the product text, neutral 0.5 when the category
declares no requirements (`if category.requirements:` is truthiness on the
list). -/
def prefScore (requirements : List String) (p : Product) : ℚ :=
  if requirements.isEmpty then 0.5
  else (requirements.countP (fun req => textMatches req (matchText p)) : ℚ) /
    (requirements.length : ℚ)

/-- Brands present in the current cart (`[p.brand for p in current_cart if
p.brand]`; Python truthiness drops both `None` and the empty string). -/
def cartBrands (current_cart : List Product) : List String :=
  (current_cart.filterMap Product.brand).filter (fun b => b ≠ "")

/-- Set-coherence factor (`score_product`, SET COHERENCE section): neutral 0.5,
plus 0.3 when the candidate's brand already appears in the cart. -/
def coherenceScore (p : Product) (current_cart : List Product) : ℚ :=
  if current_cart.isEmpty then 0.5
  else
    match p.brand with
    | some b => if b ∈ cartBrands current_cart then 0.5 + 0.3 else 0.5
    | none => 0.5

example : basePriceScore 80 80 = 0.5 := by norm_num [basePriceScore]
example : basePriceScore 96 80 = 0.8 := by norm_num [basePriceScore]
example : deliveryBase (some 5) 5 = 1 := by norm_num [deliveryBase]
example : deliveryBase (some 8) 5 = 0.1 := by norm_num [deliveryBase]
example : textMatches "warm" "Super WARM thing" = true := by decide
example : textMatches "warm" "cold thing" = false := by decide

/-! ## Claim C1: price factor -/

theorem basePriceScore_bounds (price budget : ℚ) (hb : 0 < budget) (hp : 0 ≤ price) :
    0 ≤ basePriceScore price budget ∧ basePriceScore price budget ≤ 1 := by
  have hr : 0 ≤ price / budget := div_nonneg hp (le_of_lt hb)
  simp only [basePriceScore]
  by_cases h : price / budget ≤ 1
  · rw [if_pos h]
    constructor <;> [linarith; linarith]
  · rw [if_neg h]
    push_neg at h
    constructor
    · exact le_max_left 0 _
    · apply max_le (by norm_num) (by linarith)

theorem priceScoreRaw_bounds (price budget : ℚ) (orig : Option ℚ)
    (hb : 0 < budget) (hp : 0 ≤ price) :
    0 ≤ priceScoreRaw price budget orig ∧ priceScoreRaw price budget orig ≤ 1 := by
  obtain ⟨h0, h1⟩ := basePriceScore_bounds price budget hb hp
  match orig with
  | none => exact ⟨h0, h1⟩
  | some op =>
    simp only [priceScoreRaw]
    by_cases h : op ≠ 0 ∧ price < op
    · rw [if_pos h]
      have hop : 0 < op := lt_of_le_of_lt hp h.2
      have hd : 0 ≤ (op - price) / op * 0.2 := by
        apply mul_nonneg (div_nonneg (by linarith) (le_of_lt hop)) (by norm_num)
      exact ⟨le_min (by norm_num) (by linarith), min_le_left _ _⟩
    · rw [if_neg h]
      exact ⟨h0, h1⟩

/-- Claim C1 (corrected).  The branch formulas and the [0,1] bound hold as
stated, and the price factor is monotonically non-increasing *within* each
branch (prices up to the per-item budget; prices strictly above it).  The
claimed global monotonicity across the two branches is false — see
`c1_price_monotone_counterexample`. -/
theorem c1_priceFactor_branches_bounds_piecewise_monotone
    (budget u v price p1 p2 q1 q2 : ℚ) (orig : Option ℚ)
    (hb : 0 < budget) (hprice : 0 ≤ price)
    (hu : u ≤ budget) (hv : budget < v)
    (hp1 : 0 ≤ p1) (hp12 : p1 ≤ p2) (hp2 : p2 ≤ budget)
    (hq1 : budget < q1) (hq12 : q1 ≤ q2) :
    basePriceScore u budget = 1 - 0.5 * (u / budget)
    ∧ basePriceScore v budget = max 0 (1 - (v / budget - 1))
    ∧ 0 ≤ priceScoreRaw price budget orig
    ∧ priceScoreRaw price budget orig ≤ 1
    ∧ basePriceScore p2 budget ≤ basePriceScore p1 budget
    ∧ basePriceScore q2 budget ≤ basePriceScore q1 budget := by
  have hdiv : ∀ a b : ℚ, a ≤ b → a / budget ≤ b / budget := by
    intro a b hab
    exact (div_le_div_iff_of_pos_right hb).mpr hab
  refine ⟨?_, ?_, (priceScoreRaw_bounds price budget orig hb hprice).1,
    (priceScoreRaw_bounds price budget orig hb hprice).2, ?_, ?_⟩
  · simp only [basePriceScore]
    rw [if_pos ((div_le_one hb).mpr hu)]
    ring
  · simp only [basePriceScore]
    rw [if_neg (by rw [not_le]; exact (one_lt_div hb).mpr hv)]
  · have h1 : p1 / budget ≤ 1 := (div_le_one hb).mpr (le_trans hp12 hp2)
    have h2 : p2 / budget ≤ 1 := (div_le_one hb).mpr hp2
    have h12 : p1 / budget ≤ p2 / budget := hdiv _ _ hp12
    simp only [basePriceScore]
    rw [if_pos h1, if_pos h2]
    linarith
  · have h1 : 1 < q1 / budget := (one_lt_div hb).mpr hq1
    have h2 : 1 < q2 / budget := (one_lt_div hb).mpr (lt_of_lt_of_le hq1 hq12)
    have h12 : q1 / budget ≤ q2 / budget := hdiv _ _ hq12
    simp only [basePriceScore]
    rw [if_neg (not_le.mpr h1), if_neg (not_le.mpr h2)]
    exact max_le_max le_rfl (by linarith)

/-- Claim C1 counterexample: the price factor is *not* monotonically
non-increasing in price.  At per-item budget 80, a product priced 80 (ratio 1)
scores 0.5 while a pricier product at 96 (ratio 1.2) scores 0.8: raising the
price raised the factor across the two branches. -/
theorem c1_price_monotone_counterexample :
    (80 : ℚ) < 96
    ∧ priceScore { id := "a", name := "a", retailer := "r", price := 80 } 80 = 0.5
    ∧ priceScore { id := "b", name := "b", retailer := "r", price := 96 } 80 = 0.8
    ∧ priceScore { id := "a", name := "a", retailer := "r", price := 80 } 80
      < priceScore { id := "b", name := "b", retailer := "r", price := 96 } 80 := by
  refine ⟨by norm_num, ?_, ?_, ?_⟩ <;>
    norm_num [priceScore, priceScoreRaw, basePriceScore]

/-- Witness for `c1_priceFactor_branches_bounds_piecewise_monotone` at
budget 80, in-budget prices 40 ≤ 60, over-budget prices 100 ≤ 120, bound
check at price 96 with an original price of 120. -/
theorem c1_priceFactor_witness :
    (0 : ℚ) < 80 ∧ (0 : ℚ) ≤ 96 ∧ (60 : ℚ) ≤ 80 ∧ (80 : ℚ) < 100
    ∧ (basePriceScore 60 80 = 1 - 0.5 * (60 / 80)
      ∧ basePriceScore 100 80 = max 0 (1 - (100 / 80 - 1))
      ∧ 0 ≤ priceScoreRaw 96 80 (some 120)
      ∧ priceScoreRaw 96 80 (some 120) ≤ 1
      ∧ basePriceScore 60 80 ≤ basePriceScore 40 80
      ∧ basePriceScore 120 80 ≤ basePriceScore 100 80) :=
  ⟨by norm_num, by norm_num, by norm_num, by norm_num,
    c1_priceFactor_branches_bounds_piecewise_monotone 80 60 100 96 40 60 100 120
      (some 120) (by norm_num) (by norm_num) (by norm_num) (by norm_num)
      (by norm_num) (by norm_num) (by norm_num) (by norm_num) (by norm_num)⟩

/-! ## Claim C4: delivery factor -/

/-- Claim C4 (confirmed): a product whose `delivery_days` equals the days
until the deadline gets exactly 1.0 delivery credit before the free-shipping
bonus; `delivery_days = daysUntilDeadline + 3` lands in the 0.1 tier; a
missing `delivery_days` gives 0.4; free shipping (`delivery_cost = 0`) adds
0.1, capped at 1. -/
theorem c4_deliveryFactor_tiers (D : ℤ) (dd : Option ℤ) :
    deliveryBase (some D) D = 1
    ∧ deliveryBase (some (D + 3)) D = 0.1
    ∧ deliveryBase none D = 0.4
    ∧ deliveryScoreRaw dd (some 0) D = min 1 (deliveryBase dd D + 0.1)
    ∧ deliveryScoreRaw dd (some 0) D ≤ 1 := by
  refine ⟨?_, ?_, rfl, ?_, ?_⟩
  · simp [deliveryBase]
  · simp only [deliveryBase]
    rw [if_neg (by omega), if_neg (by omega)]
  · simp [deliveryScoreRaw]
  · simp only [deliveryScoreRaw, if_pos rfl]
    exact min_le_left _ _

/-! ## Claim C3: review factor -/

/-- Review factor (`score_product`, REVIEW SCORE section).  The source guard
`if product.rating and product.reviews_count` is Python truthiness: the
formula applies only when both fields are present *and nonzero*; otherwise the
neutral-penalty constant 0.3 is used.  `math.log` is the real logarithm. -/
noncomputable def reviewScoreRaw (rating : Option ℚ) (reviews_count : Option ℕ) : ℝ :=
  match rating, reviews_count with
  | some r, some c =>
    if r ≠ 0 ∧ c ≠ 0 then
      0.7 * ((r : ℝ) / 5) + 0.3 * min 1 (Real.log ((c : ℝ) + 1) / Real.log 500)
    else 0.3
  | _, _ => 0.3

noncomputable def reviewScore (p : Product) : ℝ :=
  reviewScoreRaw p.rating p.reviews_count

theorem reviewScoreRaw_formula (r : ℚ) (c : ℕ) (hr : r ≠ 0) (hc : c ≠ 0) :
    reviewScoreRaw (some r) (some c)
      = 0.7 * ((r : ℝ) / 5) + 0.3 * min 1 (Real.log ((c : ℝ) + 1) / Real.log 500) := by
  simp only [reviewScoreRaw]
  rw [if_pos ⟨hr, hc⟩]

theorem volumeConfidence_bounds (c : ℕ) :
    0 ≤ min 1 (Real.log ((c : ℝ) + 1) / Real.log 500)
    ∧ min 1 (Real.log ((c : ℝ) + 1) / Real.log 500) ≤ 1 := by
  have hl : (0:ℝ) < Real.log 500 := Real.log_pos (by norm_num)
  have hn : (0:ℝ) ≤ Real.log ((c : ℝ) + 1) := by
    apply Real.log_nonneg
    have : (0:ℝ) ≤ (c : ℝ) := Nat.cast_nonneg c
    linarith
  exact ⟨le_min (by norm_num) (div_nonneg hn (le_of_lt hl)), min_le_left _ _⟩

/-- Claim C3 (corrected).  For a rating that is present *and positive* and a
reviews count that is present *and nonzero*, the review factor equals
`0.7*(rating/5) + 0.3*min(1, ln(reviews_count+1)/ln 500)`, lies in [0,1] and
is strictly increasing in the rating; when either field is absent it is the
neutral-penalty constant 0.3.  The claim as stated (formula for all *present*
values) is false at present-but-zero fields — see
`c3_reviewFactor_counterexample`. -/
theorem c3_reviewFactor_formula_bounds_monotone_absent
    (r r2 : ℚ) (c : ℕ) (ro : Option ℚ) (co : Option ℕ)
    (hr : 0 < r) (hr5 : r ≤ 5) (hc : c ≠ 0) (hr2 : r < r2) (hr25 : r2 ≤ 5)
    (habs : ro = none ∨ co = none) :
    reviewScoreRaw (some r) (some c)
      = 0.7 * ((r : ℝ) / 5) + 0.3 * min 1 (Real.log ((c : ℝ) + 1) / Real.log 500)
    ∧ 0 ≤ reviewScoreRaw (some r) (some c)
    ∧ reviewScoreRaw (some r) (some c) ≤ 1
    ∧ reviewScoreRaw (some r) (some c) < reviewScoreRaw (some r2) (some c)
    ∧ reviewScoreRaw ro co = 0.3 := by
  obtain ⟨hm0, hm1⟩ := volumeConfidence_bounds c
  have heq := reviewScoreRaw_formula r c (ne_of_gt hr) hc
  have heq2 := reviewScoreRaw_formula r2 c (ne_of_gt (lt_trans hr hr2)) hc
  have hrR : (0:ℝ) < (r : ℝ) := by exact_mod_cast hr
  have hr5R : (r : ℝ) ≤ 5 := by exact_mod_cast hr5
  have hr2R : (r : ℝ) < (r2 : ℝ) := by exact_mod_cast hr2
  refine ⟨heq, ?_, ?_, ?_, ?_⟩
  · rw [heq]; nlinarith
  · rw [heq]; nlinarith
  · rw [heq, heq2]; nlinarith
  · rcases habs with h | h
    · subst h; cases co <;> simp [reviewScoreRaw]
    · subst h; cases ro <;> simp [reviewScoreRaw]

/-- Claim C3 counterexample: `reviews_count = 0` is present, yet the code's
truthiness guard sends it to the 0.3 branch while the claimed formula gives
`0.7*(4/5) + 0.3*min(1, ln 1/ln 500) = 0.56`. -/
theorem c3_reviewFactor_counterexample :
    reviewScoreRaw (some 4) (some 0) = 0.3
    ∧ 0.7 * (((4:ℚ) : ℝ) / 5) + 0.3 * min 1 (Real.log (((0:ℕ) : ℝ) + 1) / Real.log 500)
      = 0.56
    ∧ reviewScoreRaw (some 4) (some 0)
      ≠ 0.7 * (((4:ℚ) : ℝ) / 5) + 0.3 * min 1 (Real.log (((0:ℕ) : ℝ) + 1) / Real.log 500) := by
  have h1 : reviewScoreRaw (some 4) (some 0) = 0.3 := by
    simp [reviewScoreRaw]
  have h2 : 0.7 * (((4:ℚ) : ℝ) / 5) + 0.3 * min 1 (Real.log (((0:ℕ) : ℝ) + 1) / Real.log 500)
      = 0.56 := by
    rw [show (((0:ℕ) : ℝ) + 1) = 1 by norm_num, Real.log_one, zero_div]
    rw [show min (1:ℝ) 0 = 0 by norm_num]
    norm_num
  exact ⟨h1, h2, by rw [h1, h2]; norm_num⟩

/-- Witness for `c3_reviewFactor_formula_bounds_monotone_absent` at
rating 4 < 5, reviews count 100, and an absent-rating product. -/
theorem c3_reviewFactor_witness :
    (0 : ℚ) < 4 ∧ (4 : ℚ) < 5 ∧ (100 : ℕ) ≠ 0
    ∧ (reviewScoreRaw (some 4) (some 100)
        = 0.7 * (((4:ℚ) : ℝ) / 5) + 0.3 * min 1 (Real.log (((100:ℕ) : ℝ) + 1) / Real.log 500)
      ∧ 0 ≤ reviewScoreRaw (some 4) (some 100)
      ∧ reviewScoreRaw (some 4) (some 100) ≤ 1
      ∧ reviewScoreRaw (some 4) (some 100) < reviewScoreRaw (some 5) (some 100)
      ∧ reviewScoreRaw none (some 100) = 0.3) :=
  ⟨by norm_num, by norm_num, by norm_num,
    c3_reviewFactor_formula_bounds_monotone_absent 4 5 100 none (some 100)
      (by norm_num) (by norm_num) (by norm_num) (by norm_num) (by norm_num)
      (Or.inl rfl)⟩

/-! ## Claim C2: composite score and rounded breakdown -/

/-- Breakdown entry `"reviews": round(review_score * 35, 1)`. -/
noncomputable def breakdownReviews (p : Product) : ℝ :=
  pyRound10R (35 * reviewScore p)

/-- Breakdown entry `"price": round(price_score * 25, 1)`. -/
def breakdownPriceQ (p : Product) (budget_per_item : ℚ) : ℚ :=
  pyRound10 (25 * priceScore p budget_per_item)

/-- Breakdown entry `"delivery": round(delivery_score * 25, 1)`. -/
def breakdownDeliveryQ (p : Product) (days_until_deadline : ℤ) : ℚ :=
  pyRound10 (25 * deliveryScore p days_until_deadline)

/-- Breakdown entry `"preference": round(pref_score * 10, 1)`. -/
def breakdownPreferenceQ (requirements : List String) (p : Product) : ℚ :=
  pyRound10 (10 * prefScore requirements p)

/-- Breakdown entry `"coherence": round(coherence_score * 5, 1)`. -/
def breakdownCoherenceQ (p : Product) (current_cart : List Product) : ℚ :=
  pyRound10 (5 * coherenceScore p current_cart)

/-- The composite `total_score = round(total * 100, 1)` with
`total = 0.35*review + 0.25*price + 0.25*delivery + 0.10*pref + 0.05*coherence`. -/
noncomputable def totalScoreVal (p : Product) (requirements : List String)
    (budget_per_item : ℚ) (days_until_deadline : ℤ) (current_cart : List Product) : ℝ :=
  pyRound10R ((0.35 * reviewScore p
    + 0.25 * (priceScore p budget_per_item : ℝ)
    + 0.25 * (deliveryScore p days_until_deadline : ℝ)
    + 0.10 * (prefScore requirements p : ℝ)
    + 0.05 * (coherenceScore p current_cart : ℝ)) * 100)

/-- Sum of the five rounded breakdown entries. -/
noncomputable def breakdownSum (p : Product) (requirements : List String)
    (budget_per_item : ℚ) (days_until_deadline : ℤ) (current_cart : List Product) : ℝ :=
  breakdownReviews p + (breakdownPriceQ p budget_per_item : ℝ)
    + (breakdownDeliveryQ p days_until_deadline : ℝ)
    + (breakdownPreferenceQ requirements p : ℝ)
    + (breakdownCoherenceQ p current_cart : ℝ)

/-- The delivery factor is always an exact multiple of one tenth, so its
breakdown entry rounds exactly. -/
theorem deliveryScoreRaw_tenth (dd : Option ℤ) (dc : Option ℚ) (D : ℤ) :
    ∃ k : ℤ, deliveryScoreRaw dd dc D = (k : ℚ) / 10 := by
  have hbase : deliveryBase dd D = 1 ∨ deliveryBase dd D = 1/2
      ∨ deliveryBase dd D = 1/10 ∨ deliveryBase dd D = 2/5 := by
    rcases dd with _ | d
    · right; right; right; norm_num [deliveryBase]
    · simp only [deliveryBase]
      by_cases h1 : d ≤ D
      · left; rw [if_pos h1]
      · rw [if_neg h1]
        by_cases h2 : d ≤ D + 2
        · right; left; rw [if_pos h2]; norm_num
        · right; right; left; rw [if_neg h2]; norm_num
  simp only [deliveryScoreRaw]
  by_cases h : dc = some 0
  · rw [if_pos h]
    rcases hbase with hb | hb | hb | hb <;> rw [hb]
    · exact ⟨10, by rw [min_eq_left (by norm_num)]; norm_num⟩
    · exact ⟨6, by rw [min_eq_right (by norm_num)]; norm_num⟩
    · exact ⟨2, by rw [min_eq_right (by norm_num)]; norm_num⟩
    · exact ⟨5, by rw [min_eq_right (by norm_num)]; norm_num⟩
  · rw [if_neg h]
    rcases hbase with hb | hb | hb | hb <;> rw [hb]
    exacts [⟨10, by norm_num⟩, ⟨5, by norm_num⟩, ⟨1, by norm_num⟩, ⟨4, by norm_num⟩]

/-- The coherence factor is 0.5 or 0.8, so its breakdown entry rounds exactly. -/
theorem coherenceScore_cases (p : Product) (current_cart : List Product) :
    coherenceScore p current_cart = 1/2 ∨ coherenceScore p current_cart = 4/5 := by
  simp only [coherenceScore]
  by_cases h : current_cart.isEmpty
  · rw [if_pos h]; left; norm_num
  · rw [if_neg h]
    rcases hpb : p.brand with _ | b
    · left; norm_num
    · by_cases hb : b ∈ cartBrands current_cart
      · right
        show (if b ∈ cartBrands current_cart then (0.5:ℚ) + 0.3 else 0.5) = 4/5
        rw [if_pos hb]; norm_num
      · left
        show (if b ∈ cartBrands current_cart then (0.5:ℚ) + 0.3 else 0.5) = 1/2
        rw [if_neg hb]; norm_num

/-- Claim C2 (corrected).  Each breakdown entry is the unit factor score times
its weight (35, 25, 25, 10, 5), rounded to one decimal; and the sum of the
five entries is within 0.2 of `total_score`.  The claimed 0.1 tolerance is
false at exact rounding ties — see `c2_breakdown_sum_counterexample`: the
delivery and coherence entries round exactly, so the worst case is four
half-tie errors of 0.05 (reviews, price, preference, and the total itself). -/
theorem c2_breakdown_weights_and_sum_within_two_tenths (p : Product)
    (requirements : List String) (budget_per_item : ℚ) (days_until_deadline : ℤ)
    (current_cart : List Product) :
    breakdownReviews p = pyRound10R (35 * reviewScore p)
    ∧ breakdownPriceQ p budget_per_item = pyRound10 (25 * priceScore p budget_per_item)
    ∧ breakdownDeliveryQ p days_until_deadline
        = pyRound10 (25 * deliveryScore p days_until_deadline)
    ∧ breakdownPreferenceQ requirements p = pyRound10 (10 * prefScore requirements p)
    ∧ breakdownCoherenceQ p current_cart = pyRound10 (5 * coherenceScore p current_cart)
    ∧ |breakdownSum p requirements budget_per_item days_until_deadline current_cart
        - totalScoreVal p requirements budget_per_item days_until_deadline current_cart|
      ≤ 0.2 := by
  refine ⟨rfl, rfl, rfl, rfl, rfl, ?_⟩
  obtain ⟨k, hk⟩ := deliveryScoreRaw_tenth p.delivery_days p.delivery_cost days_until_deadline
  have hCex : pyRound10 (25 * deliveryScore p days_until_deadline)
      = 25 * deliveryScore p days_until_deadline := by
    apply pyRound10_of_tenth _ (25 * k)
    rw [show deliveryScore p days_until_deadline
      = deliveryScoreRaw p.delivery_days p.delivery_cost days_until_deadline from rfl, hk]
    push_cast; ring
  have hGex : pyRound10 (5 * coherenceScore p current_cart)
      = 5 * coherenceScore p current_cart := by
    rcases coherenceScore_cases p current_cart with h | h <;> rw [h]
    · exact pyRound10_of_tenth _ 25 (by norm_num)
    · exact pyRound10_of_tenth _ 40 (by norm_num)
  simp only [breakdownSum, breakdownReviews, breakdownPriceQ, breakdownDeliveryQ,
    breakdownPreferenceQ, breakdownCoherenceQ, totalScoreVal, hCex, hGex]
  rw [pyRound10_cast (25 * priceScore p budget_per_item),
    pyRound10_cast (10 * prefScore requirements p)]
  have hS : (0.35 * reviewScore p
      + 0.25 * (priceScore p budget_per_item : ℝ)
      + 0.25 * (deliveryScore p days_until_deadline : ℝ)
      + 0.10 * (prefScore requirements p : ℝ)
      + 0.05 * (coherenceScore p current_cart : ℝ)) * 100
      = 35 * reviewScore p + ((25 * priceScore p budget_per_item : ℚ) : ℝ)
        + ((25 * deliveryScore p days_until_deadline : ℚ) : ℝ)
        + ((10 * prefScore requirements p : ℚ) : ℝ)
        + ((5 * coherenceScore p current_cart : ℚ) : ℝ) := by
    push_cast; ring
  rw [hS]
  have e1 := pyRound10R_sub_abs_le (35 * reviewScore p)
  have e2 := pyRound10R_sub_abs_le ((25 * priceScore p budget_per_item : ℚ) : ℝ)
  have e3 := pyRound10R_sub_abs_le ((10 * prefScore requirements p : ℚ) : ℝ)
  have e4 := pyRound10R_sub_abs_le (35 * reviewScore p
    + ((25 * priceScore p budget_per_item : ℚ) : ℝ)
    + ((25 * deliveryScore p days_until_deadline : ℚ) : ℝ)
    + ((10 * prefScore requirements p : ℚ) : ℝ)
    + ((5 * coherenceScore p current_cart : ℚ) : ℝ))
  rw [abs_le] at e1 e2 e3 e4 ⊢
  push_cast at e2 e3 e4 ⊢
  constructor <;> [linarith; linarith]

theorem floor_rat_eval (q : ℚ) (n : ℤ) (h1 : (n:ℚ) ≤ q) (h2 : q < n + 1) : ⌊q⌋ = n := by
  rw [Int.floor_eq_iff]
  exact ⟨h1, h2⟩

/-- Evaluate `pyRound10` at an exact tie whose floor is even: round down. -/
theorem pyRound10_eval_tie_even (x : ℚ) (n : ℤ) (ht : 10 * x - n = 1/2)
    (he : n % 2 = 0) : pyRound10 x = (n : ℚ) / 10 := by
  have hfl : ⌊10 * x⌋ = n := floor_rat_eval _ _ (by linarith) (by push_cast; linarith)
  unfold pyRound10
  rw [rdHalfEven_eq_tie_even _ n hfl ht he]

/-- Evaluate `pyRound10` at an exact tie whose floor is odd: round up. -/
theorem pyRound10_eval_tie_odd (x : ℚ) (n : ℤ) (ht : 10 * x - n = 1/2)
    (ho : ¬ n % 2 = 0) : pyRound10 x = ((n : ℚ) + 1) / 10 := by
  have hfl : ⌊10 * x⌋ = n := floor_rat_eval _ _ (by linarith) (by push_cast; linarith)
  unfold pyRound10
  rw [rdHalfEven_eq_tie_odd _ n hfl ht ho]
  push_cast
  ring

/-- The counterexample product for claim C2: rating 51/98 with 499 reviews
makes the reviews entry an exact rounding tie (13.05), price 47 against a
per-item budget of 50 makes the price entry a tie (13.25). -/
def cexProduct : Product :=
  { id := "cex-1", name := "warm jacket", retailer := "REI", price := 47,
    rating := some (51/98), reviews_count := some 499,
    delivery_days := some 3, brand := some "Acme" }

/-- Eight requirement tokens of which exactly one matches: the preference
entry is the tie 1.25. -/
def cexRequirements : List String :=
  ["warm", "z1", "z2", "z3", "z4", "z5", "z6", "z7"]

/-- A one-item current cart sharing the brand, so coherence is 0.8. -/
def cexCart : List Product :=
  [{ id := "cex-2", name := "shell", retailer := "evo", price := 120,
     brand := some "Acme" }]

/-- Claim C2 counterexample: at this input the five rounded breakdown entries
sum to 56.4 while `total_score` is 56.6 — the difference is 0.2, outside the
claimed 0.1 tolerance.  All three inexact entries sit on exact rounding ties
that Python's round-half-even sends down (13.05 → 13.0, 13.25 → 13.2,
1.25 → 1.2) while the total 56.55 sits on a tie with odd floor and rounds up
to 56.6. -/
theorem c2_breakdown_sum_counterexample :
    breakdownSum cexProduct cexRequirements 50 5 cexCart = ((282/5 : ℚ) : ℝ)
    ∧ totalScoreVal cexProduct cexRequirements 50 5 cexCart = ((283/5 : ℚ) : ℝ)
    ∧ |breakdownSum cexProduct cexRequirements 50 5 cexCart
        - totalScoreVal cexProduct cexRequirements 50 5 cexCart| > 0.1 := by
  have hrev : reviewScore cexProduct = ((261/700 : ℚ) : ℝ) := by
    show reviewScoreRaw (some (51/98)) (some 499) = _
    rw [reviewScoreRaw_formula _ _ (by norm_num) (by norm_num)]
    rw [show (((499:ℕ) : ℝ) + 1) = 500 by norm_num]
    rw [div_self (ne_of_gt (Real.log_pos (by norm_num))), min_self]
    push_cast
    norm_num
  have hprice : priceScore cexProduct 50 = 53/100 := by
    norm_num [priceScore, priceScoreRaw, basePriceScore, cexProduct]
  have hdel : deliveryScore cexProduct 5 = 1 := by
    norm_num [deliveryScore, deliveryScoreRaw, deliveryBase, cexProduct]
  have hcount : cexRequirements.countP
      (fun req => textMatches req (matchText cexProduct)) = 1 := by decide
  have hpref : prefScore cexRequirements cexProduct = 1/8 := by
    rw [prefScore, if_neg (by decide), hcount]
    norm_num [cexRequirements]
  have hcoh : coherenceScore cexProduct cexCart = 4/5 := by
    rw [coherenceScore, if_neg (by decide)]
    show (if "Acme" ∈ cartBrands cexCart then (0.5:ℚ) + 0.3 else 0.5) = 4/5
    rw [if_pos (by decide)]
    norm_num
  have hbr : breakdownReviews cexProduct = ((13 : ℚ) : ℝ) := by
    rw [breakdownReviews, hrev,
      show (35 * ((261/700 : ℚ) : ℝ)) = ((261/20 : ℚ) : ℝ) by push_cast; norm_num,
      ← pyRound10_cast, pyRound10_eval_tie_even (261/20) 130 (by norm_num) (by norm_num)]
    norm_num
  have hbp : breakdownPriceQ cexProduct 50 = 66/5 := by
    rw [breakdownPriceQ, hprice,
      show (25 * (53/100 : ℚ)) = 53/4 by norm_num,
      pyRound10_eval_tie_even (53/4) 132 (by norm_num) (by norm_num)]
    norm_num
  have hbd : breakdownDeliveryQ cexProduct 5 = 25 := by
    rw [breakdownDeliveryQ, hdel]
    rw [show (25 * (1:ℚ)) = 25 by norm_num]
    rw [pyRound10_of_tenth 25 250 (by norm_num)]
  have hbf : breakdownPreferenceQ cexRequirements cexProduct = 6/5 := by
    rw [breakdownPreferenceQ, hpref,
      show (10 * (1/8 : ℚ)) = 5/4 by norm_num,
      pyRound10_eval_tie_even (5/4) 12 (by norm_num) (by norm_num)]
    norm_num
  have hbc : breakdownCoherenceQ cexProduct cexCart = 4 := by
    rw [breakdownCoherenceQ, hcoh,
      show (5 * (4/5 : ℚ)) = 4 by norm_num,
      pyRound10_of_tenth 4 40 (by norm_num)]
  have hsum : breakdownSum cexProduct cexRequirements 50 5 cexCart = ((282/5 : ℚ) : ℝ) := by
    rw [breakdownSum, hbr, hbp, hbd, hbf, hbc]
    push_cast
    norm_num
  have htot : totalScoreVal cexProduct cexRequirements 50 5 cexCart = ((283/5 : ℚ) : ℝ) := by
    rw [totalScoreVal, hrev, hprice, hdel, hpref, hcoh,
      show ((0.35 * ((261/700 : ℚ) : ℝ) + 0.25 * ((53/100 : ℚ) : ℝ) + 0.25 * ((1:ℚ) : ℝ)
        + 0.10 * ((1/8 : ℚ) : ℝ) + 0.05 * ((4/5 : ℚ) : ℝ)) * 100) = ((1131/20 : ℚ) : ℝ)
        by push_cast; norm_num,
      ← pyRound10_cast, pyRound10_eval_tie_odd (1131/20) 565 (by norm_num) (by norm_num)]
    norm_num
  refine ⟨hsum, htot, ?_⟩
  rw [hsum, htot]
  rw [show (((282/5 : ℚ) : ℝ) - ((283/5 : ℚ) : ℝ)) = ((-1/5 : ℚ) : ℝ) by push_cast; norm_num]
  rw [show |((-1/5 : ℚ) : ℝ)| = ((1/5 : ℚ) : ℝ) by push_cast; rw [abs_of_nonpos] <;> norm_num]
  push_cast
  norm_num

/-! ## Cart data model (`src/frontend/lib/types.ts`) -/

/-- Stored score breakdown (`interface ScoreBreakdown`). -/
structure ScoreBreakdown where
  reviews : ℚ
  price : ℚ
  delivery : ℚ
  preference : ℚ
  coherence : ℚ
deriving DecidableEq

/-- A scored product as carried by the cart (`interface ScoredProduct`; the
presentational `max_possible` and `explanation` fields are omitted — no cart
operation reads them). -/
structure ScoredProduct where
  product : Product
  total_score : ℚ
  breakdown : ScoreBreakdown
  rank : ℕ
deriving DecidableEq

/-- One cart slot (`interface CartItem`).  The category tag is a closed string
union in the source; it is embedded as a plain string. -/
structure CartItem where
  category : String
  selected : ScoredProduct
  alternatives : List ScoredProduct
deriving DecidableEq

/-- The cart (`interface Cart`). -/
structure Cart where
  items : List CartItem
  total_price : ℚ
  budget_remaining : ℚ
  retailers_involved : List String
  all_within_deadline : Bool
deriving DecidableEq

/-- Sum of the selected products' prices (the `total_price` aggregate). -/
def cartTotal (items : List CartItem) : ℚ :=
  (items.map (fun it => it.selected.product.price)).sum

/-- Distinct selected retailers (the `retailers_involved` aggregate). -/
def retailersOf (items : List CartItem) : List String :=
  (items.map (fun it => it.selected.product.retailer)).dedup

/-- Whether a selection satisfies the delivery deadline: a present
`delivery_days` at most the days until the deadline (an absent value cannot
satisfy the check). -/
def meetsDeadline (sp : ScoredProduct) (daysUntilDeadline : ℤ) : Bool :=
  match sp.product.delivery_days with
  | some d => d ≤ daysUntilDeadline
  | none => false

/-- The `all_within_deadline` aggregate. -/
def allWithinDeadline (items : List CartItem) (daysUntilDeadline : ℤ) : Bool :=
  items.all (fun it => meetsDeadline it.selected daysUntilDeadline)

/-! ## Cart operations, modelled from the spec

The cart operations run in the FastAPI backend, which is not part of the
source snapshot: `src/frontend/lib/api.ts` and `src/frontend/hooks/useCart.ts`
only forward `/cart/swap`, `/optimize/budget` and `/optimize/delivery`
requests.  The definitions below are therefore modelled from the
specification (§4.5). -/

/-- Modelled from the spec: choosing between two budget candidates — the
higher-scoring one, preferring the cheaper among equal scores ("preferring the
cheapest among near-equal scores"). -/
def pickBudgetCandidate (a b : ScoredProduct) : ScoredProduct :=
  if a.total_score < b.total_score then b
  else if b.total_score = a.total_score ∧ b.product.price < a.product.price then b
  else a

/-- Modelled from the spec: `optimizeBudget` on one category — "search its
alternatives ... for the highest-scoring candidate whose price is strictly
lower than the current selection's price ...; replace only if a strictly
cheaper option exists". -/
def optimizeBudgetItem (it : CartItem) : CartItem :=
  match it.alternatives.filter
      (fun alt => alt.product.price < it.selected.product.price) with
  | [] => it
  | c :: cs =>
    let best := cs.foldl pickBudgetCandidate c
    { it with selected := best,
              alternatives := it.selected :: it.alternatives.filter (fun alt => alt ≠ best) }

/-- Modelled from the spec: `optimizeBudget(cart)` — per-category budget
search, "then recompute aggregates".  The backend call carries no deadline, so
the `all_within_deadline` flag is carried over. -/
def optimizeBudget (cart : Cart) : Cart :=
  let items := cart.items.map optimizeBudgetItem
  { items := items,
    total_price := cartTotal items,
    budget_remaining := cart.budget_remaining + cart.total_price - cartTotal items,
    retailers_involved := retailersOf items,
    all_within_deadline := cart.all_within_deadline }

theorem pickBudgetCandidate_choice (a b : ScoredProduct) :
    pickBudgetCandidate a b = a ∨ pickBudgetCandidate a b = b := by
  unfold pickBudgetCandidate
  split_ifs <;> [right; right; left] <;> rfl

theorem foldl_pickBudgetCandidate_mem (l : List ScoredProduct) (c : ScoredProduct) :
    l.foldl pickBudgetCandidate c ∈ c :: l := by
  induction l generalizing c with
  | nil => simp
  | cons d ds ih =>
    rw [List.foldl_cons]
    rcases List.mem_cons.mp (ih (pickBudgetCandidate c d)) with he | hm
    · rw [he]
      rcases pickBudgetCandidate_choice c d with h1 | h1 <;> rw [h1] <;> simp
    · simp [hm]

theorem optimizeBudgetItem_spec (it : CartItem) :
    (optimizeBudgetItem it).selected.product.price ≤ it.selected.product.price
    ∧ ((optimizeBudgetItem it).selected ≠ it.selected →
        it.alternatives.any
          (fun alt => alt.product.price < it.selected.product.price) = true) := by
  unfold optimizeBudgetItem
  cases hf : it.alternatives.filter
      (fun alt => alt.product.price < it.selected.product.price) with
  | nil => simp
  | cons c cs =>
    have hmem : (cs.foldl pickBudgetCandidate c) ∈ c :: cs :=
      foldl_pickBudgetCandidate_mem cs c
    rw [← hf] at hmem
    obtain ⟨halt, hlt⟩ := List.mem_filter.mp hmem
    have hlt' : (cs.foldl pickBudgetCandidate c).product.price
        < it.selected.product.price := of_decide_eq_true hlt
    refine ⟨le_of_lt hlt', fun _ => ?_⟩
    exact List.any_eq_true.mpr ⟨_, halt, hlt⟩

/-- Claim C5 (confirmed; modelled from the spec).  `optimizeBudget` never
increases `total_price` (for a cart whose `total_price` aggregate is the sum
of its selected prices), and a category's selection changes only when a
strictly cheaper alternative exists in that category. -/
theorem c5_optimizeBudget_never_increases_total (cart : Cart) (it0 : CartItem)
    (h : cart.total_price = cartTotal cart.items)
    (hit0 : it0 ∈ cart.items)
    (hch : (optimizeBudgetItem it0).selected ≠ it0.selected) :
    (optimizeBudget cart).total_price ≤ cart.total_price
    ∧ it0.alternatives.any
        (fun alt => alt.product.price < it0.selected.product.price) = true := by
  constructor
  · rw [h]
    show cartTotal (cart.items.map optimizeBudgetItem) ≤ cartTotal cart.items
    unfold cartTotal
    rw [List.map_map]
    apply List.sum_le_sum
    intro i _
    exact (optimizeBudgetItem_spec i).1
  · exact (optimizeBudgetItem_spec it0).2 hch

/-- A minimal scored product for concrete carts. -/
def mkScored (pid retailer : String) (price score : ℚ) (dd : Option ℤ) : ScoredProduct :=
  { product := { id := pid, name := pid, retailer := retailer, price := price,
                 delivery_days := dd },
    total_score := score,
    breakdown := { reviews := 0, price := 0, delivery := 0, preference := 0, coherence := 0 },
    rank := 1 }

def c5wSelected : ScoredProduct := mkScored "sel" "REI" 100 70 (some 3)
def c5wAlt : ScoredProduct := mkScored "alt" "REI" 80 90 (some 3)
def c5wItem : CartItem := { category := "jacket", selected := c5wSelected,
                            alternatives := [c5wAlt] }
def c5wCart : Cart := { items := [c5wItem], total_price := 100,
                        budget_remaining := 300, retailers_involved := ["REI"],
                        all_within_deadline := true }

/-- Witness for `c5_optimizeBudget_never_increases_total` on a one-item cart
whose only alternative is cheaper (80 < 100) and higher-scoring. -/
theorem c5_optimizeBudget_witness :
    c5wCart.total_price = cartTotal c5wCart.items
    ∧ c5wItem ∈ c5wCart.items
    ∧ (optimizeBudgetItem c5wItem).selected ≠ c5wItem.selected
    ∧ ((optimizeBudget c5wCart).total_price ≤ c5wCart.total_price
      ∧ c5wItem.alternatives.any
          (fun alt => alt.product.price < c5wItem.selected.product.price) = true) :=
  ⟨by simp [c5wCart, c5wItem, c5wSelected, c5wAlt, mkScored, cartTotal],
    by decide, by decide,
    c5_optimizeBudget_never_increases_total c5wCart c5wItem
      (by simp [c5wCart, c5wItem, c5wSelected, c5wAlt, mkScored, cartTotal])
      (by decide) (by decide)⟩

/-! ## Claim C6: swap into a nonexistent product id -/

/-- Outcome of a swap request: the updated cart, or the NotFound failure the
spec requires for an unknown product id. -/
inductive SwapOutcome where
  | ok (cart : Cart)
  | notFound
deriving DecidableEq

/-- The category's known pool: its current selection plus its alternatives. -/
def poolOf (it : CartItem) : List ScoredProduct :=
  it.selected :: it.alternatives

/-- Modelled from the spec: `swap(cart, category, newProductId)` — "replace
the selection in one category with a specified alternative (must exist in that
category's known pool, else fail with NotFound)", then recompute aggregates.
(The spec's re-scoring of coherence and ranks for the surviving categories is
not modelled; it does not affect the NotFound path.)  The backend
implementation is not in the source snapshot (`src/frontend/hooks/useCart.ts`
only posts `/cart/swap`). -/
def swapCart (cart : Cart) (category newProductId : String) : SwapOutcome :=
  match cart.items.find? (fun it => it.category == category) with
  | none => .notFound
  | some it =>
    match (poolOf it).find? (fun sp => sp.product.id == newProductId) with
    | none => .notFound
    | some target =>
      let items := cart.items.map (fun j =>
        if j.category == category then
          { j with selected := target,
                   alternatives := (poolOf j).filter
                     (fun sp => sp.product.id ≠ newProductId) }
        else j)
      .ok { items := items,
            total_price := cartTotal items,
            budget_remaining := cart.budget_remaining + cart.total_price - cartTotal items,
            retailers_involved := retailersOf items,
            all_within_deadline := cart.all_within_deadline }

/-- The cart the caller holds after a swap request: unchanged on NotFound. -/
def swapApply (cart : Cart) (category newProductId : String) : Cart :=
  match swapCart cart category newProductId with
  | .ok c => c
  | .notFound => cart

/-- Claim C6 (confirmed; modelled from the spec).  Swapping to a product id
that does not occur in the target category's known pool signals NotFound and
leaves the cart unchanged. -/
theorem c6_swap_notFound_cart_unchanged (cart : Cart) (category newProductId : String)
    (h : ∀ it ∈ cart.items, it.category = category →
      ∀ sp ∈ poolOf it, sp.product.id ≠ newProductId) :
    swapCart cart category newProductId = .notFound
    ∧ swapApply cart category newProductId = cart := by
  have hswap : swapCart cart category newProductId = .notFound := by
    unfold swapCart
    split
    · rfl
    · rename_i it hfind
      have hmem : it ∈ cart.items := List.mem_of_find?_eq_some hfind
      have hp := List.find?_some hfind
      have hcat : it.category = category := eq_of_beq hp
      split
      · rfl
      · rename_i target hfind2
        exfalso
        have hmem2 : target ∈ poolOf it := List.mem_of_find?_eq_some hfind2
        have hp2 := List.find?_some hfind2
        have hid : target.product.id = newProductId := eq_of_beq hp2
        exact h it hmem hcat target hmem2 hid
  refine ⟨hswap, ?_⟩
  unfold swapApply
  rw [hswap]

def c6wCart : Cart := { items := [c5wItem], total_price := 100,
                        budget_remaining := 300, retailers_involved := ["REI"],
                        all_within_deadline := true }

/-- Witness for `c6_swap_notFound_cart_unchanged`: the id `ghost` occurs in no
pool of the `jacket` category. -/
theorem c6_swap_notFound_witness :
    (∀ it ∈ c6wCart.items, it.category = "jacket" →
      ∀ sp ∈ poolOf it, sp.product.id ≠ "ghost")
    ∧ (swapCart c6wCart "jacket" "ghost" = .notFound
      ∧ swapApply c6wCart "jacket" "ghost" = c6wCart) :=
  ⟨by decide, c6_swap_notFound_cart_unchanged c6wCart "jacket" "ghost" (by decide)⟩

/-! ## Claim C7: optimizeDelivery frame property -/

/-- Modelled from the spec: choosing between two deadline-repair candidates —
"the highest-scoring candidate that satisfies the deadline". -/
def pickDeliveryCandidate (a b : ScoredProduct) : ScoredProduct :=
  if a.total_score < b.total_score then b else a

/-- Modelled from the spec: `optimizeDelivery` on one category — only "each
category whose selection fails the deadline check" is searched; "if none
exists, keep the original selection".  A category whose selection already
satisfies the deadline is returned untouched. -/
def optimizeDeliveryItem (daysUntilDeadline : ℤ) (it : CartItem) : CartItem :=
  if meetsDeadline it.selected daysUntilDeadline then it
  else
    match it.alternatives.filter (fun alt => meetsDeadline alt daysUntilDeadline) with
    | [] => it
    | c :: cs =>
      let best := cs.foldl pickDeliveryCandidate c
      { it with selected := best,
                alternatives := it.selected :: it.alternatives.filter (fun alt => alt ≠ best) }

/-- Modelled from the spec: `optimizeDelivery(cart, deadline)` — per-category
deadline repair, then recomputed aggregates, leaving `all_within_deadline`
false rather than silently succeeding when repair is impossible.  The backend
implementation is not in the source snapshot (`src/frontend/lib/api.ts` only
posts `/optimize/delivery`). -/
def optimizeDelivery (cart : Cart) (daysUntilDeadline : ℤ) : Cart :=
  { items := cart.items.map (optimizeDeliveryItem daysUntilDeadline),
    total_price := cartTotal (cart.items.map (optimizeDeliveryItem daysUntilDeadline)),
    budget_remaining := cart.budget_remaining + cart.total_price
      - cartTotal (cart.items.map (optimizeDeliveryItem daysUntilDeadline)),
    retailers_involved := retailersOf (cart.items.map (optimizeDeliveryItem daysUntilDeadline)),
    all_within_deadline :=
      allWithinDeadline (cart.items.map (optimizeDeliveryItem daysUntilDeadline))
        daysUntilDeadline }

/-- Claim C7 (confirmed; modelled from the spec).  `optimizeDelivery` never
changes a category whose selection already satisfies the deadline; on a
well-formed cart where every selection meets the deadline it returns the cart
unchanged and `all_within_deadline` stays true. -/
theorem c7_optimizeDelivery_keeps_satisfying_categories (cart : Cart)
    (daysUntilDeadline : ℤ) (it0 : CartItem)
    (hit0 : meetsDeadline it0.selected daysUntilDeadline = true)
    (hall : ∀ it ∈ cart.items, meetsDeadline it.selected daysUntilDeadline = true)
    (htp : cart.total_price = cartTotal cart.items)
    (hret : cart.retailers_involved = retailersOf cart.items)
    (hawd : cart.all_within_deadline = true) :
    optimizeDeliveryItem daysUntilDeadline it0 = it0
    ∧ optimizeDelivery cart daysUntilDeadline = cart
    ∧ (optimizeDelivery cart daysUntilDeadline).all_within_deadline = true := by
  have hframe : ∀ it : CartItem, meetsDeadline it.selected daysUntilDeadline = true →
      optimizeDeliveryItem daysUntilDeadline it = it := by
    intro it h
    unfold optimizeDeliveryItem
    rw [if_pos h]
  have hmap : cart.items.map (optimizeDeliveryItem daysUntilDeadline) = cart.items := by
    have hcongr : ∀ it ∈ cart.items, optimizeDeliveryItem daysUntilDeadline it = id it :=
      fun it hit => hframe it (hall it hit)
    rw [List.map_congr_left hcongr, List.map_id]
  have hallw : allWithinDeadline cart.items daysUntilDeadline = true := by
    unfold allWithinDeadline
    rw [List.all_eq_true]
    intro it hit
    exact hall it hit
  have hcart : optimizeDelivery cart daysUntilDeadline = cart := by
    unfold optimizeDelivery
    rw [hmap, hallw, ← htp, ← hret, ← hawd, add_sub_cancel_right]
  exact ⟨hframe it0 hit0, hcart, by rw [hcart]; exact hawd⟩

/-- Witness for `c7_optimizeDelivery_keeps_satisfying_categories`: every
selection in the one-item cart arrives in 3 days against a 5-day deadline. -/
theorem c7_optimizeDelivery_witness :
    meetsDeadline c5wItem.selected 5 = true
    ∧ (∀ it ∈ c6wCart.items, meetsDeadline it.selected 5 = true)
    ∧ c6wCart.total_price = cartTotal c6wCart.items
    ∧ c6wCart.retailers_involved = retailersOf c6wCart.items
    ∧ c6wCart.all_within_deadline = true
    ∧ (optimizeDeliveryItem 5 c5wItem = c5wItem
      ∧ optimizeDelivery c6wCart 5 = c6wCart
      ∧ (optimizeDelivery c6wCart 5).all_within_deadline = true) :=
  ⟨by decide, by decide,
    by simp [c6wCart, c5wItem, c5wSelected, c5wAlt, mkScored, cartTotal],
    by decide, rfl,
    c7_optimizeDelivery_keeps_satisfying_categories c6wCart 5 c5wItem
      (by decide) (by decide)
      (by simp [c6wCart, c5wItem, c5wSelected, c5wAlt, mkScored, cartTotal])
      (by decide) rfl⟩

/-! ## Claim C8: recommender `userPreferenceScore` -/

/-- A liked-product snapshot (`interface LikedSnapshot` in
`src/frontend/lib/api.ts`). -/
structure LikedSnapshot where
  id : String
  name : String
  retailer : String
  price : ℚ
deriving DecidableEq

/-- Modelled from the spec: the arithmetic mean of liked snapshot prices
(§4.4); the backend recommender implementation is not in the source
snapshot. -/
def avgLikedPrice (snaps : List LikedSnapshot) : ℚ :=
  (snaps.map LikedSnapshot.price).sum / (snaps.length : ℚ)

def clamp01 (x : ℚ) : ℚ := max 0 (min 1 x)

/-- Modelled from the spec: retailer match component — 1 iff the product's
retailer appears among the liked retailers (§4.4). -/
def retailerComponent (p : Product) (snaps : List LikedSnapshot) : ℚ :=
  if p.retailer ∈ snaps.map LikedSnapshot.retailer then 1 else 0

/-- Modelled from the spec: price similarity component —
`clamp(1 - |price - avg| / avg, 0, 1)`, and 0 when the average is 0 (§4.4
divide-by-zero guard). -/
def priceComponent (p : Product) (snaps : List LikedSnapshot) : ℚ :=
  if avgLikedPrice snaps = 0 then 0
  else clamp01 (1 - |p.price - avgLikedPrice snaps| / avgLikedPrice snaps)

/-- Modelled from the spec: `userPreferenceScore(product, likedSnapshots)` —
0 on an empty list, else `5 * (0.6*retailerComponent + 0.4*priceComponent)`
(§4.4). -/
def userPreferenceScore (p : Product) (snaps : List LikedSnapshot) : ℚ :=
  if snaps.isEmpty then 0
  else 5 * (0.6 * retailerComponent p snaps + 0.4 * priceComponent p snaps)

/-- Claim C8 (confirmed; modelled from the spec).  `userPreferenceScore` is 0
on an empty snapshot list, equals the weighted retailer/price combination on a
nonempty one, always lies in [0,5], and the price component is 0 when the
average liked price is 0. -/
theorem c8_userPreferenceScore_range_and_formula (p : Product)
    (snaps : List LikedSnapshot) (hne : snaps ≠ []) :
    userPreferenceScore p [] = 0
    ∧ userPreferenceScore p snaps
        = 5 * (0.6 * retailerComponent p snaps + 0.4 * priceComponent p snaps)
    ∧ 0 ≤ userPreferenceScore p snaps
    ∧ userPreferenceScore p snaps ≤ 5
    ∧ (avgLikedPrice snaps = 0 → priceComponent p snaps = 0) := by
  have hR : 0 ≤ retailerComponent p snaps ∧ retailerComponent p snaps ≤ 1 := by
    unfold retailerComponent
    by_cases h : p.retailer ∈ snaps.map LikedSnapshot.retailer
    · rw [if_pos h]; norm_num
    · rw [if_neg h]; norm_num
  have hP : 0 ≤ priceComponent p snaps ∧ priceComponent p snaps ≤ 1 := by
    unfold priceComponent
    by_cases h : avgLikedPrice snaps = 0
    · rw [if_pos h]; norm_num
    · rw [if_neg h]
      unfold clamp01
      constructor
      · exact le_max_left 0 _
      · exact max_le (by norm_num) (min_le_left _ _)
  have hform : userPreferenceScore p snaps
      = 5 * (0.6 * retailerComponent p snaps + 0.4 * priceComponent p snaps) := by
    unfold userPreferenceScore
    cases snaps with
    | nil => exact absurd rfl hne
    | cons a as => rfl
  refine ⟨by simp [userPreferenceScore], hform, ?_, ?_, ?_⟩
  · rw [hform]; nlinarith [hR.1, hR.2, hP.1, hP.2]
  · rw [hform]; nlinarith [hR.1, hR.2, hP.1, hP.2]
  · intro h; unfold priceComponent; rw [if_pos h]

def c8wSnap : LikedSnapshot := { id := "l1", name := "liked", retailer := "REI", price := 100 }

def c8wProduct : Product := { id := "x", name := "x", retailer := "REI", price := 90 }

/-- Witness for `c8_userPreferenceScore_range_and_formula` on a one-snapshot
list. -/
theorem c8_userPreferenceScore_witness :
    [c8wSnap] ≠ []
    ∧ (userPreferenceScore c8wProduct [] = 0
      ∧ userPreferenceScore c8wProduct [c8wSnap]
          = 5 * (0.6 * retailerComponent c8wProduct [c8wSnap]
            + 0.4 * priceComponent c8wProduct [c8wSnap])
      ∧ 0 ≤ userPreferenceScore c8wProduct [c8wSnap]
      ∧ userPreferenceScore c8wProduct [c8wSnap] ≤ 5
      ∧ (avgLikedPrice [c8wSnap] = 0
        → priceComponent c8wProduct [c8wSnap] = 0)) :=
  ⟨by decide,
    c8_userPreferenceScore_range_and_formula c8wProduct [c8wSnap]
      (by decide)⟩

/-! ## Claim C9: `isValidProductUrl` and the cart link gate -/

/-- The only field of the platform `URL` object the gate reads. -/
structure ParsedUrl where
  protocol : String
deriving DecidableEq

/-- JavaScript whitespace trimmed by `String.prototype.trim` (ASCII part). -/
def isSpaceChar (c : Char) : Bool :=
  c = ' ' || c = '\t' || c = '\n' || c = '\r'

/-- JavaScript `url.trim()` on the character list. -/
def jsTrim (s : String) : String :=
  ⟨((s.data.dropWhile isSpaceChar).reverse.dropWhile isSpaceChar).reverse⟩

/-- JavaScript `s.startsWith(pre)`. -/
def startsWithStr (s pre : String) : Bool :=
  pre.data.isPrefixOf s.data

/-- The gate `isValidProductUrl` from `src/frontend/lib/types.ts`: false for a missing
or non-string value; trim; false for the empty string; false unless the
string starts with `http://` or `https://`; then `new URL(s)` must succeed
(the platform parser is the abstract `parseUrl` argument; `catch` is `none`)
with protocol `http:` or `https:`. -/
def isValidProductUrl (parseUrl : String → Option ParsedUrl) (url : Option String) : Bool :=
  match url with
  | none => false
  | some raw =>
    let s := jsTrim raw
    if s.data.isEmpty then false
    else if !(startsWithStr s "http://" || startsWithStr s "https://") then false
    else
      match parseUrl s with
      | none => false
      | some u => u.protocol == "http:" || u.protocol == "https:"

/-- The link rendered by `CartItemCard` (`src/unnamed/part_001` 350-392): the
retailer product link is shown, with `href = p.product_url`, exactly when
`isValidProductUrl(p.product_url)` holds; otherwise "Link not available". -/
def cartItemLink (parseUrl : String → Option ParsedUrl) (p : Product) : Option String :=
  if isValidProductUrl parseUrl p.product_url then p.product_url else none

/-- Claim C9 (confirmed).  `isValidProductUrl` rejects a missing URL, a
whitespace-only URL and a URL without an `http(s)://` prefix; when it accepts,
the trimmed string has the prefix and the platform parser succeeded with an
http or https protocol; and the cart UI renders the retailer link (with the
product URL as target) exactly when the gate accepts. -/
theorem c9_isValidProductUrl_gate (parseUrl : String → Option ParsedUrl)
    (u1 u2 u3 : String) (p : Product)
    (h1 : jsTrim u1 = "")
    (h2 : startsWithStr (jsTrim u2) "http://" = false)
    (h2' : startsWithStr (jsTrim u2) "https://" = false)
    (h3 : isValidProductUrl parseUrl (some u3) = true) :
    isValidProductUrl parseUrl none = false
    ∧ isValidProductUrl parseUrl (some u1) = false
    ∧ isValidProductUrl parseUrl (some u2) = false
    ∧ (startsWithStr (jsTrim u3) "http://" || startsWithStr (jsTrim u3) "https://") = true
    ∧ ((parseUrl (jsTrim u3)).map ParsedUrl.protocol = some "http:"
      ∨ (parseUrl (jsTrim u3)).map ParsedUrl.protocol = some "https:")
    ∧ (cartItemLink parseUrl p).isSome = isValidProductUrl parseUrl p.product_url
    ∧ (isValidProductUrl parseUrl p.product_url = true
      → cartItemLink parseUrl p = p.product_url) := by
  have hred : ∀ u : String, isValidProductUrl parseUrl (some u)
      = (if (jsTrim u).data.isEmpty then false
         else if !(startsWithStr (jsTrim u) "http://" || startsWithStr (jsTrim u) "https://")
           then false
         else match parseUrl (jsTrim u) with
              | none => false
              | some pu => pu.protocol == "http:" || pu.protocol == "https:") :=
    fun u => rfl
  have hpre : (startsWithStr (jsTrim u3) "http://" || startsWithStr (jsTrim u3) "https://")
      = true := by
    by_contra hc
    have hc' : (startsWithStr (jsTrim u3) "http://" || startsWithStr (jsTrim u3) "https://")
        = false := Bool.eq_false_iff.mpr hc
    rw [hred u3, hc'] at h3
    simp at h3
  refine ⟨rfl, ?_, ?_, hpre, ?_, ?_, ?_⟩
  · rw [hred u1, h1]
    rfl
  · rw [hred u2, h2, h2']
    cases hb : (jsTrim u2).data.isEmpty <;> rfl
  · rw [hred u3, hpre] at h3
    cases hb : (jsTrim u3).data.isEmpty
    · rw [hb] at h3
      simp only [Bool.or_true, Bool.true_or, Bool.not_true] at h3
      cases hp : parseUrl (jsTrim u3) with
      | none =>
        rw [hp] at h3
        simp at h3
      | some u =>
        rw [hp] at h3
        simp only [if_false, Bool.false_eq_true, if_neg (by simp : ¬((false : Bool) = true))] at h3
        rcases Bool.or_eq_true_iff.mp h3 with hh | hh
        · left
          show some u.protocol = some "http:"
          exact congrArg some (eq_of_beq hh)
        · right
          show some u.protocol = some "https:"
          exact congrArg some (eq_of_beq hh)
    · rw [hb] at h3
      simp at h3
  · unfold cartItemLink
    by_cases hv : isValidProductUrl parseUrl p.product_url = true
    · rw [if_pos hv, hv]
      cases hurl : p.product_url with
      | none => rw [hurl] at hv; exact absurd hv Bool.false_ne_true
      | some r => rfl
    · have hv' : isValidProductUrl parseUrl p.product_url = false := Bool.eq_false_iff.mpr hv
      rw [if_neg (by rw [hv']; simp), hv']
      rfl
  · intro hv
    unfold cartItemLink
    rw [if_pos hv]

def c9wParse : String → Option ParsedUrl := fun _ => some { protocol := "https:" }

def c9wProduct : Product := { id := "w", name := "w", retailer := "REI", price := 10,
                              product_url := some "https://shop.example/a" }

/-- Witness for `c9_isValidProductUrl_gate` with a parser that always answers
`https:`, a whitespace URL, an `ftp://` URL and an accepted `https://` URL. -/
theorem c9_isValidProductUrl_witness :
    jsTrim "   " = ""
    ∧ startsWithStr (jsTrim "ftp://x") "http://" = false
    ∧ startsWithStr (jsTrim "ftp://x") "https://" = false
    ∧ isValidProductUrl c9wParse (some "https://shop.example/a") = true
    ∧ (isValidProductUrl c9wParse none = false
      ∧ isValidProductUrl c9wParse (some "   ") = false
      ∧ isValidProductUrl c9wParse (some "ftp://x") = false
      ∧ (startsWithStr (jsTrim "https://shop.example/a") "http://"
          || startsWithStr (jsTrim "https://shop.example/a") "https://") = true
      ∧ ((c9wParse (jsTrim "https://shop.example/a")).map ParsedUrl.protocol = some "http:"
        ∨ (c9wParse (jsTrim "https://shop.example/a")).map ParsedUrl.protocol = some "https:")
      ∧ (cartItemLink c9wParse c9wProduct).isSome
          = isValidProductUrl c9wParse c9wProduct.product_url
      ∧ (isValidProductUrl c9wParse c9wProduct.product_url = true
        → cartItemLink c9wParse c9wProduct = c9wProduct.product_url)) :=
  ⟨by decide, by decide, by decide, by decide,
    c9_isValidProductUrl_gate c9wParse "   " "ftp://x" "https://shop.example/a" c9wProduct
      (by decide) (by decide) (by decide) (by decide)⟩

/-! ## Claim C10: checkout review steps partition the cart -/

/-- One per-retailer checkout step (`interface RetailerCheckoutStep` in
`src/frontend/lib/types.ts`). -/
structure RetailerCheckoutStep where
  retailer : String
  items : List CartItem
  subtotal : ℚ
  shipping_cost : ℚ
  estimated_delivery : String
  status : String
  confirmation_number : Option String
deriving DecidableEq

/-- The step built for one retailer in the review screen
(`CheckoutFlow.tsx` 188-212): the cart items whose selected product has this
retailer, with subtotal the sum of their selected prices, shipping 0,
a fixed delivery estimate and a processing-dependent status. -/
def retailerStep (isProcessing : Bool) (items : List CartItem)
    (retailer : String) : RetailerCheckoutStep :=
  { retailer := retailer,
    items := items.filter (fun i => i.selected.product.retailer == retailer),
    subtotal := ((items.filter (fun i => i.selected.product.retailer == retailer)).map
      (fun i => i.selected.product.price)).sum,
    shipping_cost := 0,
    estimated_delivery := "3-5 business days",
    status := if isProcessing then "processing" else "pending",
    confirmation_number := none }

/-- The review screen's list of steps: one per entry of
`cart.retailers_involved`. -/
def reviewSteps (isProcessing : Bool) (cart : Cart) : List RetailerCheckoutStep :=
  cart.retailers_involved.map (retailerStep isProcessing cart.items)

theorem sum_map_add_distrib (rs : List String) (f g : String → ℚ) :
    (rs.map (fun r => f r + g r)).sum = (rs.map f).sum + (rs.map g).sum := by
  induction rs with
  | nil => simp
  | cons r rs ih =>
    simp only [List.map_cons, List.sum_cons, ih]
    ring

theorem sum_map_ite_count (x : String) (v : ℚ) (rs : List String) :
    (rs.map (fun r => if x = r then v else 0)).sum = (rs.count x : ℚ) * v := by
  induction rs with
  | nil => simp
  | cons r rs ih =>
    rw [List.map_cons, List.sum_cons, ih, List.count_cons]
    by_cases h : x = r
    · rw [if_pos h]
      have hb : (r == x) = true := by rw [h]; exact beq_self_eq_true r
      rw [hb]
      push_cast
      norm_num
      ring
    · rw [if_neg h]
      have hb : (r == x) = false := by
        rw [beq_eq_false_iff_ne]
        exact fun hrx => h hrx.symm
      rw [hb]
      push_cast
      norm_num

theorem partition_subtotal_sum (rs : List String) (items : List CartItem) :
    (rs.map (fun r => ((items.filter (fun i => i.selected.product.retailer == r)).map
        (fun i => i.selected.product.price)).sum)).sum
    = (items.map (fun i => (rs.count i.selected.product.retailer : ℚ)
        * i.selected.product.price)).sum := by
  induction items with
  | nil => simp
  | cons i is ih =>
    have hsplit : ∀ r : String,
        (((i :: is).filter (fun j => j.selected.product.retailer == r)).map
          (fun j => j.selected.product.price)).sum
        = (if i.selected.product.retailer = r then i.selected.product.price else 0)
          + ((is.filter (fun j => j.selected.product.retailer == r)).map
              (fun j => j.selected.product.price)).sum := by
      intro r
      rw [List.filter_cons]
      by_cases h : i.selected.product.retailer = r
      · rw [if_pos (by rw [h]; exact beq_self_eq_true r), if_pos h, List.map_cons,
          List.sum_cons]
      · rw [if_neg (fun hc => h (eq_of_beq hc)), if_neg h, zero_add]
    rw [List.map_congr_left (fun r _ => hsplit r), sum_map_add_distrib,
      sum_map_ite_count, ih, List.map_cons, List.sum_cons]

theorem steps_filter_length (b : Bool) (items : List CartItem) (i0 : CartItem)
    (hmem : i0 ∈ items) (rs : List String) :
    ((rs.map (retailerStep b items)).filter (fun s => i0 ∈ s.items)).length
      = rs.count i0.selected.product.retailer := by
  induction rs with
  | nil => rfl
  | cons r rs ih =>
    rw [List.map_cons, List.filter_cons, List.count_cons]
    by_cases h : i0.selected.product.retailer = r
    · have hin : i0 ∈ (retailerStep b items r).items := by
        show i0 ∈ items.filter (fun i => i.selected.product.retailer == r)
        rw [List.mem_filter]
        exact ⟨hmem, by rw [h]; exact beq_self_eq_true r⟩
      rw [if_pos (decide_eq_true hin), List.length_cons, ih]
      have hb : (r == i0.selected.product.retailer) = true := by
        rw [h]; exact beq_self_eq_true r
      rw [hb]
      norm_num
    · have hnin : ¬ i0 ∈ (retailerStep b items r).items := by
        intro hin
        have hin2 : i0 ∈ items.filter (fun i => i.selected.product.retailer == r) := hin
        rw [List.mem_filter] at hin2
        exact h (eq_of_beq hin2.2)
      rw [if_neg (fun hc => hnin (of_decide_eq_true hc)), ih]
      have hb : (r == i0.selected.product.retailer) = false :=
        beq_eq_false_iff_ne.mpr (fun he => h he.symm)
      rw [hb]
      norm_num

/-- Claim C10 (confirmed).  In the checkout review screen, assuming
`retailers_involved` lists each distinct selected retailer exactly once, the
per-retailer steps partition the cart items: every cart item lies in exactly
one step, each step subtotal is the sum of its items selected prices, and the
step subtotals sum to the sum of all selected prices. -/
theorem c10_review_steps_partition (b : Bool) (cart : Cart) (i0 : CartItem)
    (s0 : RetailerCheckoutStep)
    (h : ∀ i ∈ cart.items, cart.retailers_involved.count i.selected.product.retailer = 1)
    (hi0 : i0 ∈ cart.items) (hs0 : s0 ∈ reviewSteps b cart) :
    ((reviewSteps b cart).filter (fun s => i0 ∈ s.items)).length = 1
    ∧ s0.subtotal = (s0.items.map (fun i => i.selected.product.price)).sum
    ∧ ((reviewSteps b cart).map (fun s => s.subtotal)).sum
        = (cart.items.map (fun i => i.selected.product.price)).sum := by
  refine ⟨?_, ?_, ?_⟩
  · unfold reviewSteps
    rw [steps_filter_length b cart.items i0 hi0 cart.retailers_involved, h i0 hi0]
  · obtain ⟨r, _, hs⟩ := List.mem_map.mp hs0
    rw [← hs]
    rfl
  · unfold reviewSteps
    rw [List.map_map]
    have hcomp : (fun s => RetailerCheckoutStep.subtotal s) ∘ retailerStep b cart.items
        = fun r => ((cart.items.filter (fun i => i.selected.product.retailer == r)).map
            (fun i => i.selected.product.price)).sum := rfl
    rw [hcomp, partition_subtotal_sum]
    have hpt : ∀ i ∈ cart.items,
        ((cart.retailers_involved.count i.selected.product.retailer : ℚ)
          * i.selected.product.price) = i.selected.product.price := by
      intro i hi
      rw [h i hi]
      norm_num
    rw [List.map_congr_left hpt]

def c10wItemA : CartItem :=
  { category := "jacket", selected := mkScored "a" "REI" 100 70 (some 3),
    alternatives := [] }

def c10wItemB : CartItem :=
  { category := "gloves", selected := mkScored "b" "evo" 50 60 (some 2),
    alternatives := [] }

def c10wCart : Cart :=
  { items := [c10wItemA, c10wItemB], total_price := 150,
    budget_remaining := 250, retailers_involved := ["REI", "evo"],
    all_within_deadline := true }

/-- Witness for `c10_review_steps_partition` on a two-retailer cart. -/
theorem c10_review_steps_witness :
    (∀ i ∈ c10wCart.items, c10wCart.retailers_involved.count i.selected.product.retailer = 1)
    ∧ c10wItemA ∈ c10wCart.items
    ∧ retailerStep false c10wCart.items "REI" ∈ reviewSteps false c10wCart
    ∧ (((reviewSteps false c10wCart).filter (fun s => c10wItemA ∈ s.items)).length = 1
      ∧ (retailerStep false c10wCart.items "REI").subtotal
          = ((retailerStep false c10wCart.items "REI").items.map
              (fun i => i.selected.product.price)).sum
      ∧ ((reviewSteps false c10wCart).map (fun s => s.subtotal)).sum
          = (c10wCart.items.map (fun i => i.selected.product.price)).sum) :=
  ⟨by decide, by decide, List.mem_map.mpr ⟨"REI", by decide, rfl⟩,
    c10_review_steps_partition false c10wCart c10wItemA
      (retailerStep false c10wCart.items "REI")
      (by decide) (by decide) (List.mem_map.mpr ⟨"REI", by decide, rfl⟩)⟩
